import Mathlib

/-!
Shallow embedding of the scholscraper search-and-filter pipeline
(`src/hooks/useSearch.ts`, `src/utils/searchUtils.ts`, `src/utils/dateUtils.ts`,
`src/types/scholarship.ts`).

Modelling conventions:
* JS `Date` values are represented by their `getTime()` millisecond value (`Int`);
  the code only ever compares dates through `getTime`, `isBefore`, `isAfter`.
* JS numbers produced by `parseFloat` are modelled exactly as decimal values
  `num / 10 ^ den` (`Dec`), plus `NaN` and the two infinities (`JSNum`).  No claim
  here depends on binary floating-point rounding.
* Filter bounds (`minAmount`, `maxAmount`) are modelled as integers (the UI slider
  supplies integers; the defaults are 0 and 100000).
* JS strings are Lean `String`s; the JS operations used by the code
  (`trim`, `toLowerCase`, `includes`, the regex `/[$,\s]/g`, default `sort`)
  are given explicit executable models below.
* `Array.prototype.sort(cmp)` is a stable sort consistent with the comparator;
  it is modelled by `List.insertionSort`, which is stable.
* The external `fuse.js` matcher is not part of the repository; the pipeline is
  parameterised by an arbitrary `fuzzy` function standing for
  `fuse.search(term).map(r => r.item)`.
-/

/-- Record model from `src/types/scholarship.ts` (`Scholarship`).  `deadline`
is the `getTime()` value of the `Date`. -/
structure Scholarship where
  id : String
  title : String
  description : String
  amount : String
  deadline : Int
  eligibility : List String
  requirements : List String
  applicationUrl : String
  provider : String
  location : String
  category : String
  isActive : Bool
deriving DecidableEq, Repr

/-- Filter state from `src/types/scholarship.ts` (`SearchFilters`). -/
structure SearchFilters where
  searchTerm : String
  category : String
  location : String
  minAmount : Int
  maxAmount : Int
  deadlineFrom : Option Int
  deadlineTo : Option Int
  eligibility : List String
deriving DecidableEq, Repr

/-- The character class `\s` of JS regexes / the WhiteSpace+LineTerminator set
used by `String.prototype.trim`. -/
def isJsSpace (c : Char) : Bool :=
  c = ' ' || c = '\t' || c = '\n' || c = '\r' || c.toNat = 11 || c.toNat = 12 ||
  c.toNat = 0xA0 || c.toNat = 0x1680 || (0x2000 ≤ c.toNat && c.toNat ≤ 0x200A) ||
  c.toNat = 0x2028 || c.toNat = 0x2029 || c.toNat = 0x202F || c.toNat = 0x205F ||
  c.toNat = 0x3000 || c.toNat = 0xFEFF

/-- JS `String.prototype.trim`. -/
def jsTrim (s : String) : String :=
  ⟨((s.data.dropWhile isJsSpace).reverse.dropWhile isJsSpace).reverse⟩

/-- `amountStr.replace(/[$,\s]/g, '')` from `parseAmount` in `useSearch.ts`. -/
def stripAmount (s : String) : String :=
  ⟨s.data.filter (fun c => !(c = '$' || c = ',' || isJsSpace c))⟩

/-- `10 ^ n` on `Nat`, kept as a plain recursive definition so that concrete
inputs evaluate by kernel reduction. -/
def pow10 : Nat → Nat
  | 0 => 1
  | n + 1 => 10 * pow10 n

/-- An exact decimal value `num / 10 ^ den`, the result of parsing a decimal
literal.  (JS stores the nearest binary double; the claims checked here only
concern signs and order against integer bounds, where the exact value and the
double agree for the inputs involved.) -/
structure Dec where
  num : Int
  den : Nat
deriving DecidableEq, Repr

/-- A JS number as produced by `parseFloat`. -/
inductive JSNum where
  | nan
  | posInf
  | negInf
  | fin (d : Dec)
deriving DecidableEq, Repr

/-- `d < (m : Int)` for a decimal `d = num / 10 ^ den`. -/
def Dec.ltInt (d : Dec) (m : Int) : Bool :=
  d.num < m * (pow10 d.den : Int)

/-- `d > (m : Int)` for a decimal `d = num / 10 ^ den`. -/
def Dec.gtInt (d : Dec) (m : Int) : Bool :=
  m * (pow10 d.den : Int) < d.num

/-- Unary minus on decimals. -/
def Dec.negate (d : Dec) : Dec := ⟨-d.num, d.den⟩

/-- JS `<` against an integer bound (`NaN` compares false). -/
def JSNum.ltInt : JSNum → Int → Bool
  | .nan, _ => false
  | .posInf, _ => false
  | .negInf, _ => true
  | .fin d, m => d.ltInt m

/-- JS `>` against an integer bound (`NaN` compares false). -/
def JSNum.gtInt : JSNum → Int → Bool
  | .nan, _ => false
  | .posInf, _ => true
  | .negInf, _ => false
  | .fin d, m => d.gtInt m

/-- Numeric value of a digit string (most significant first). -/
def digitsVal (ds : List Char) : Nat :=
  ds.foldl (fun a c => 10 * a + (c.toNat - 48)) 0

/-- Is `pat` a prefix of `l`? -/
def hasPre : List Char → List Char → Bool
  | [], _ => true
  | _ :: _, [] => false
  | a :: pat, b :: l => a = b && hasPre pat l

/-- Does `l` contain `pat` as a contiguous run?  (JS `String.prototype.includes`.) -/
def hasSub (pat : List Char) : List Char → Bool
  | [] => pat.isEmpty
  | b :: l => hasPre pat (b :: l) || hasSub pat l

/-- The mantissa part of the JS `parseFloat` grammar:
`digits [. digits?] | . digits`, longest prefix; returns the value and the
unconsumed rest, or `none` when no prefix parses. -/
def parseMantissa (cs : List Char) : Option (Dec × List Char) :=
  let ip := cs.takeWhile Char.isDigit
  let r1 := cs.dropWhile Char.isDigit
  match r1 with
  | '.' :: r2 =>
    let fp := r2.takeWhile Char.isDigit
    let r3 := r2.dropWhile Char.isDigit
    if ip.isEmpty && fp.isEmpty then none
    else some (⟨(digitsVal (ip ++ fp) : Int), fp.length⟩, r3)
  | _ => if ip.isEmpty then none else some (⟨(digitsVal ip : Int), 0⟩, r1)

/-- The exponent part of the JS `parseFloat` grammar: `[eE] [+-]? digits`;
`none` when absent or incomplete (in which case `parseFloat` backtracks). -/
def parseExp (cs : List Char) : Option (Int × List Char) :=
  match cs with
  | c :: r1 =>
    if c = 'e' || c = 'E' then
      let sr : Int × List Char :=
        match r1 with
        | '+' :: t => (1, t)
        | '-' :: t => (-1, t)
        | _ => (1, r1)
      let ds := sr.2.takeWhile Char.isDigit
      if ds.isEmpty then none else some (sr.1 * (digitsVal ds : Int), sr.2.dropWhile Char.isDigit)
    else none
  | [] => none

/-- Scale a decimal by `10 ^ e`. -/
def applyExp (d : Dec) (e : Int) : Dec :=
  if 0 ≤ e then ⟨d.num * (pow10 e.toNat : Int), d.den⟩
  else ⟨d.num, d.den + (-e).toNat⟩

/-- `parseFloat` after the optional sign has been consumed. -/
def parseSigned (neg : Bool) (cs : List Char) : JSNum :=
  if hasPre "Infinity".data cs then (if neg then .negInf else .posInf)
  else
    match parseMantissa cs with
    | none => .nan
    | some (d, rest) =>
      let d2 :=
        match parseExp rest with
        | some (e, _) => applyExp d e
        | none => d
      .fin (if neg then d2.negate else d2)

/-- JS `parseFloat`: skip whitespace, optional sign, `Infinity` or a decimal
literal prefix; `NaN` when nothing parses. -/
def parseFloatJS (s : String) : JSNum :=
  match s.data.dropWhile isJsSpace with
  | '-' :: t => parseSigned true t
  | '+' :: t => parseSigned false t
  | cs => parseSigned false cs

/-- `parseAmount` from `useSearch.ts`: strip `[$,\s]`, `parseFloat`, map `NaN`
to `0`. -/
def parseAmount (s : String) : JSNum :=
  match parseFloatJS (stripAmount s) with
  | .nan => .fin ⟨0, 0⟩
  | v => v

/-- JS `toLowerCase` (ASCII case folding; the data involved is ASCII). -/
def toLowerStr (s : String) : String := ⟨s.data.map Char.toLower⟩

/-- JS `hay.includes(needle)`. -/
def strIncludes (hay needle : String) : Bool := hasSub needle.data hay.data


/-- `date-fns` `isBefore`. -/
def jsBefore (a b : Int) : Bool := a < b

/-- `date-fns` `isAfter`. -/
def jsAfter (a b : Int) : Bool := b < a

/-- `isDateInRange` from `src/utils/dateUtils.ts`. -/
def isDateInRange (date : Int) (fromD toD : Option Int) : Bool :=
  if fromD.elim false (fun f => jsBefore date f) then false
  else if toD.elim false (fun t => jsAfter date t) then false
  else true

/-- `initialFilters` from `useSearch.ts`. -/
def initialFilters : SearchFilters :=
  { searchTerm := ""
    category := ""
    location := ""
    minAmount := 0
    maxAmount := 100000
    deadlineFrom := none
    deadlineTo := none
    eligibility := [] }

/-- `searchScholarships` from `src/utils/searchUtils.ts`, parameterised by the
external `fuse.js` engine (`fuzzy rs term` stands for
`new Fuse(rs, fuseOptions).search(term).map(r => r.item)`). -/
def searchScholarships (fuzzy : List Scholarship → String → List Scholarship)
    (scholarships : List Scholarship) (searchTerm : String) : List Scholarship :=
  if jsTrim searchTerm = "" then scholarships
  else fuzzy scholarships searchTerm

/-- The `hasMatchingEligibility` expression inside `filteredScholarships`. -/
def eligibilityMatches (filters : SearchFilters) (s : Scholarship) : Bool :=
  filters.eligibility.any fun fe =>
    s.eligibility.any fun se => strIncludes (toLowerStr se) (toLowerStr fe)

/-- The predicate of `result.filter(...)` in `filteredScholarships`
(`useSearch.ts` lines 78–113), with the early `return false` branches as
nested conditionals. -/
def passesFilters (filters : SearchFilters) (s : Scholarship) : Bool :=
  if filters.category ≠ "" && s.category ≠ filters.category then false
  else if filters.location ≠ "" && s.location ≠ filters.location then false
  else
    let amount := parseAmount s.amount
    if amount.ltInt filters.minAmount || amount.gtInt filters.maxAmount then false
    else if !isDateInRange s.deadline filters.deadlineFrom filters.deadlineTo then false
    else if filters.eligibility.length > 0 then
      if !eligibilityMatches filters s then false else true
    else true

/-- `result.sort((a, b) => a.deadline.getTime() - b.deadline.getTime())`:
a stable sort consistent with that comparator, modelled by insertion sort. -/
def sortByDeadline (l : List Scholarship) : List Scholarship :=
  l.insertionSort (fun a b => a.deadline ≤ b.deadline)

/-- `filteredScholarships` from `useSearch.ts`: optional fuzzy narrowing,
then the attribute filters, then the deadline sort. -/
def filteredScholarships (fuzzy : List Scholarship → String → List Scholarship)
    (scholarships : List Scholarship) (filters : SearchFilters) : List Scholarship :=
  let result :=
    if jsTrim filters.searchTerm ≠ "" then
      searchScholarships fuzzy scholarships filters.searchTerm
    else scholarships
  sortByDeadline (result.filter (passesFilters filters))

/-- The `hasActiveFilters` expression of `searchStats` in `useSearch.ts`. -/
def hasActiveFilters (filters : SearchFilters) : Bool :=
  jsTrim filters.searchTerm ≠ "" ||
  filters.category ≠ "" ||
  filters.location ≠ "" ||
  decide (filters.minAmount > 0) ||
  decide (filters.maxAmount < 100000) ||
  filters.deadlineFrom.isSome ||
  filters.deadlineTo.isSome ||
  decide (filters.eligibility.length > 0)

/-- The `searchStats` record of `useSearch.ts`. -/
structure SearchStats where
  totalScholarships : Nat
  filteredCount : Nat
  hasActiveFilters : Bool
deriving DecidableEq, Repr

/-- `searchStats` from `useSearch.ts`. -/
def searchStats (fuzzy : List Scholarship → String → List Scholarship)
    (scholarships : List Scholarship) (filters : SearchFilters) : SearchStats :=
  { totalScholarships := scholarships.length
    filteredCount := (filteredScholarships fuzzy scholarships filters).length
    hasActiveFilters := hasActiveFilters filters }

/-- `[...new Set(l)]`: first occurrence of each value, in insertion order. -/
def setDedupAux (seen : List String) : List String → List String
  | [] => []
  | a :: rest =>
    if a ∈ seen then setDedupAux seen rest
    else a :: setDedupAux (a :: seen) rest

/-- `[...new Set(l)]`. -/
def setDedup (l : List String) : List String := setDedupAux [] l

/-- JS default string comparison (`<` on code-unit sequences), as the
lexicographic order on the character lists. -/
def charsLe : List Char → List Char → Bool
  | [], _ => true
  | _ :: _, [] => false
  | a :: as, b :: bs => if a < b then true else if b < a then false else charsLe as bs

/-- String order used by `[...].sort()` on string arrays. -/
def strLe (a b : String) : Bool := charsLe a.data b.data

/-- `[...new Set(l)].sort()`. -/
def sortStrings (l : List String) : List String :=
  l.insertionSort (fun a b => strLe a b = true)

/-- The `filterOptions` record shape of `useSearch.ts`. -/
structure FilterOptions where
  categories : List String
  locations : List String
  eligibilityOptions : List String
deriving DecidableEq, Repr

/-- `filterOptions` from `useSearch.ts` (facets: distinct sorted categories,
locations and eligibility entries of the full working set). -/
def filterOptions (scholarships : List Scholarship) : FilterOptions :=
  { categories := sortStrings (setDedup (scholarships.map (·.category)))
    locations := sortStrings (setDedup (scholarships.map (·.location)))
    eligibilityOptions := sortStrings (setDedup ((scholarships.map (·.eligibility)).flatten)) }

/-- The value returned by the `useSearch` hook (the parts that are data, not
setters). -/
structure UseSearchResult where
  filteredScholarships : List Scholarship
  filterOptions : FilterOptions
  searchStats : SearchStats
deriving DecidableEq, Repr

/-- The `useSearch` hook as a pure function of its inputs. -/
def useSearchModel (fuzzy : List Scholarship → String → List Scholarship)
    (scholarships : List Scholarship) (filters : SearchFilters) : UseSearchResult :=
  { filteredScholarships := filteredScholarships fuzzy scholarships filters
    filterOptions := filterOptions scholarships
    searchStats := searchStats fuzzy scholarships filters }

/-- The §4.2 filter table as the spec words it (second definition, for
comparison with `passesFilters` from the source): each constraint applies only
when its filter field differs from the default, and an inactive filter imposes
no constraint. -/
def specFilterTablePass (filters : SearchFilters) (s : Scholarship) : Bool :=
  (if filters.category ≠ "" then decide (s.category = filters.category) else true) &&
  (if filters.location ≠ "" then decide (s.location = filters.location) else true) &&
  (if filters.minAmount > 0 || filters.maxAmount < 100000 then
      !(parseAmount s.amount).ltInt filters.minAmount &&
      !(parseAmount s.amount).gtInt filters.maxAmount
    else true) &&
  (if filters.deadlineFrom.isSome || filters.deadlineTo.isSome then
      isDateInRange s.deadline filters.deadlineFrom filters.deadlineTo
    else true) &&
  (if filters.eligibility ≠ [] then eligibilityMatches filters s else true)

/-- The §4.2 table amended to what the source actually does: the amount-range
bound `[minAmount, maxAmount]` is enforced unconditionally (also when both
bounds sit at their defaults), the other four constraints only when active. -/
def specFilterTablePassAmended (filters : SearchFilters) (s : Scholarship) : Bool :=
  (if filters.category ≠ "" then decide (s.category = filters.category) else true) &&
  (if filters.location ≠ "" then decide (s.location = filters.location) else true) &&
  (!(parseAmount s.amount).ltInt filters.minAmount &&
   !(parseAmount s.amount).gtInt filters.maxAmount) &&
  (if filters.deadlineFrom.isSome || filters.deadlineTo.isSome then
      isDateInRange s.deadline filters.deadlineFrom filters.deadlineTo
    else true) &&
  (if filters.eligibility ≠ [] then eligibilityMatches filters s else true)

/-- `fl2` is `fl` with exactly one filter dimension switched from its default
("no constraint") value to an activating value in the sense of the §4.2 table
(for the amount bounds: a value that actually tightens the bound). -/
def activatesOne (fl fl2 : SearchFilters) : Prop :=
  (fl.searchTerm = "" ∧ ∃ t, t ≠ "" ∧ fl2 = { fl with searchTerm := t }) ∨
  (fl.category = "" ∧ ∃ c, c ≠ "" ∧ fl2 = { fl with category := c }) ∨
  (fl.location = "" ∧ ∃ c, c ≠ "" ∧ fl2 = { fl with location := c }) ∨
  (fl.minAmount = 0 ∧ ∃ m, 0 < m ∧ fl2 = { fl with minAmount := m }) ∨
  (fl.maxAmount = 100000 ∧ ∃ m, m < 100000 ∧ fl2 = { fl with maxAmount := m }) ∨
  (fl.deadlineFrom = none ∧ ∃ d, fl2 = { fl with deadlineFrom := some d }) ∨
  (fl.deadlineTo = none ∧ ∃ d, fl2 = { fl with deadlineTo := some d }) ∨
  (fl.eligibility = [] ∧ ∃ es, es ≠ [] ∧ fl2 = { fl with eligibility := es })

/-- One entry of the `keys` array of the `fuse.js` configuration. -/
structure FuseKey where
  name : String
  weight : ℚ
deriving DecidableEq, Repr

/-- The shape of the `fuse.js` configuration object. -/
structure FuseOptions where
  keys : List FuseKey
  threshold : ℚ
  includeScore : Bool
  includeMatches : Bool
  minMatchCharLength : Nat
deriving DecidableEq, Repr

/-- `fuseOptions` from `src/utils/searchUtils.ts`. -/
def fuseOptions : FuseOptions :=
  { keys :=
      [ { name := "title", weight := 0.4 }
      , { name := "description", weight := 0.3 }
      , { name := "provider", weight := 0.2 }
      , { name := "category", weight := 0.1 } ]
    threshold := 0.3
    includeScore := true
    includeMatches := true
    minMatchCharLength := 2 }

/-- Weight that `fuseOptions` assigns to a field name (0 when absent). -/
def fuseWeight (n : String) : ℚ :=
  ((fuseOptions.keys.find? (fun k => k.name = n)).map FuseKey.weight).getD 0

/-- A heap of JS arrays: the caller's records array and any arrays the pipeline
allocates.  References are indices. -/
def heapGet (h : List (List Scholarship)) (r : Nat) : List Scholarship :=
  (h[r]?).getD []

/-- Allocate a fresh array (as `Array.prototype.filter` / `.map` do). -/
def heapAlloc (h : List (List Scholarship)) (l : List Scholarship) :
    List (List Scholarship) × Nat :=
  (h ++ [l], h.length)

/-- Overwrite an array in place (as `Array.prototype.sort` does). -/
def heapSet (h : List (List Scholarship)) (r : Nat) (l : List Scholarship) :
    List (List Scholarship) :=
  h.set r l

/-- `filteredScholarships` at the level of array references: `result` starts
as an alias of the caller's array; the fuzzy step (when taken) allocates via
`.map`, `.filter` always allocates, and `.sort` mutates the array produced by
`.filter` in place. -/
def pipelineOnHeap (fuzzy : List Scholarship → String → List Scholarship)
    (fl : SearchFilters) (h : List (List Scholarship)) (r : Nat) :
    List (List Scholarship) × Nat :=
  let step1 : List (List Scholarship) × Nat :=
    if jsTrim fl.searchTerm ≠ "" then heapAlloc h (fuzzy (heapGet h r) fl.searchTerm)
    else (h, r)
  let step2 := heapAlloc step1.1 ((heapGet step1.1 step1.2).filter (passesFilters fl))
  (heapSet step2.1 step2.2 (sortByDeadline (heapGet step2.1 step2.2)), step2.2)

/-- A sample record (all fields concrete). -/
def demoScholarship : Scholarship :=
  { id := "s1"
    title := "Merit Excellence Scholarship"
    description := "A merit based award"
    amount := "$5,000"
    deadline := 1000
    eligibility := ["GPA 3.5+"]
    requirements := ["Essay"]
    applicationUrl := "https://example.org/apply"
    provider := "Acme Foundation"
    location := "USA"
    category := "STEM"
    isActive := true }

/-- A record whose amount parses above the default `maxAmount` of 100000. -/
def overCapScholarship : Scholarship :=
  { demoScholarship with id := "s2", amount := "$150,000" }

/-- A second over-cap record, for the filter-table comparison. -/
def overCapScholarship2 : Scholarship :=
  { demoScholarship with id := "s3", amount := "$200,000" }

/-- STEM record whose eligibility mentions GPA. -/
def gpaScholarship : Scholarship :=
  { demoScholarship with id := "s4", eligibility := ["GPA 3.5+"] }

/-- STEM record whose eligibility does not mention GPA. -/
def volunteerScholarship : Scholarship :=
  { demoScholarship with id := "s5", deadline := 2000, eligibility := ["Volunteer hours"] }

/-- The filters of the spec's concrete scenario: category STEM, eligibility GPA. -/
def stemGpaFilters : SearchFilters :=
  { initialFilters with category := "STEM", eligibility := ["GPA"] }

/-- A trivial stand-in for the external fuzzy engine (never invoked when the
search term is blank). -/
def idFuzzy : List Scholarship → String → List Scholarship := fun rs _ => rs

instance : IsTotal Scholarship (fun a b => a.deadline ≤ b.deadline) :=
  ⟨fun a b => Int.le_total a.deadline b.deadline⟩

instance : IsTrans Scholarship (fun a b => a.deadline ≤ b.deadline) :=
  ⟨fun _ _ _ h1 h2 => le_trans h1 h2⟩

lemma charsLe_total : ∀ a b : List Char, charsLe a b = true ∨ charsLe b a = true
  | [], _ => Or.inl rfl
  | _ :: _, [] => Or.inr rfl
  | a :: as, b :: bs => by
    unfold charsLe
    rcases lt_trichotomy a b with h | h | h
    · simp [h]
    · subst h
      simpa [lt_irrefl] using charsLe_total as bs
    · simp [h, not_lt_of_gt h]

lemma charsLe_trans : ∀ a b c : List Char,
    charsLe a b = true → charsLe b c = true → charsLe a c = true
  | [], _, _, _, _ => rfl
  | _ :: _, [], _, h1, _ => by simp [charsLe] at h1
  | _ :: _, _ :: _, [], _, h2 => by simp [charsLe] at h2
  | a :: as, b :: bs, c :: cs, h1, h2 => by
    simp only [charsLe] at h1 h2 ⊢
    by_cases hac : a < c
    · simp [hac]
    · rw [if_neg hac]
      by_cases hca : c < a
      · exfalso
        by_cases hab : a < b
        · by_cases hbc : b < c
          · exact hac (lt_trans hab hbc)
          · by_cases hcb : c < b
            · rw [if_neg hbc, if_pos hcb] at h2; cases h2
            · have hbc' : b = c := le_antisymm (not_lt.1 hcb) (not_lt.1 hbc)
              exact hac (hbc' ▸ hab)
        · by_cases hba : b < a
          · rw [if_neg hab, if_pos hba] at h1; cases h1
          · have hab' : a = b := le_antisymm (not_lt.1 hba) (not_lt.1 hab)
            by_cases hbc : b < c
            · exact hac (hab' ▸ hbc)
            · by_cases hcb : c < b
              · rw [if_neg hbc, if_pos hcb] at h2; cases h2
              · have hbc' : b = c := le_antisymm (not_lt.1 hcb) (not_lt.1 hbc)
                rw [hab', hbc'] at hca
                exact lt_irrefl c hca
      · rw [if_neg hca]
        have hac' : a = c := le_antisymm (not_lt.1 hca) (not_lt.1 hac)
        by_cases hab : a < b
        · exfalso
          subst hac'
          rw [if_neg (asymm hab), if_pos hab] at h2; cases h2
        · by_cases hba : b < a
          · rw [if_neg hab, if_pos hba] at h1; cases h1
          · have hab' : a = b := le_antisymm (not_lt.1 hba) (not_lt.1 hab)
            rw [if_neg hab, if_neg hba] at h1
            have hbc : ¬b < c := by rw [← hab', ← hac']; exact lt_irrefl a
            have hcb : ¬c < b := by rw [← hab', ← hac']; exact lt_irrefl a
            rw [if_neg hbc, if_neg hcb] at h2
            exact charsLe_trans as bs cs h1 h2

instance : IsTotal String (fun a b => strLe a b = true) :=
  ⟨fun a b => charsLe_total a.data b.data⟩

instance : IsTrans String (fun a b => strLe a b = true) :=
  ⟨fun a b c h1 h2 => charsLe_trans a.data b.data c.data h1 h2⟩

/-- The filter predicate of the source, as a conjunction. -/
lemma passesFilters_true_iff (fl : SearchFilters) (s : Scholarship) :
    passesFilters fl s = true ↔
      (fl.category = "" ∨ s.category = fl.category) ∧
      (fl.location = "" ∨ s.location = fl.location) ∧
      (parseAmount s.amount).ltInt fl.minAmount = false ∧
      (parseAmount s.amount).gtInt fl.maxAmount = false ∧
      isDateInRange s.deadline fl.deadlineFrom fl.deadlineTo = true ∧
      (fl.eligibility = [] ∨ eligibilityMatches fl s = true) := by
  unfold passesFilters
  split_ifs <;> simp_all [List.length_pos, or_iff_not_imp_left]

lemma mem_setDedupAux : ∀ (l seen : List String) (x : String),
    x ∈ setDedupAux seen l ↔ x ∈ l ∧ x ∉ seen
  | [], seen, x => by simp [setDedupAux]
  | a :: rest, seen, x => by
    simp only [setDedupAux]
    split_ifs with ha
    · rw [mem_setDedupAux rest seen x]
      constructor
      · rintro ⟨h1, h2⟩; exact ⟨List.mem_cons_of_mem _ h1, h2⟩
      · rintro ⟨h1, h2⟩
        rcases List.mem_cons.1 h1 with rfl | h1
        · exact absurd ha h2
        · exact ⟨h1, h2⟩
    · constructor
      · intro hm
        rcases List.mem_cons.1 hm with rfl | hm
        · exact ⟨List.mem_cons_self _ _, ha⟩
        · rw [mem_setDedupAux rest (a :: seen) x] at hm
          exact ⟨List.mem_cons_of_mem _ hm.1,
            fun hx => hm.2 (List.mem_cons_of_mem _ hx)⟩
      · rintro ⟨h1, h2⟩
        rcases List.mem_cons.1 h1 with rfl | h1
        · exact List.mem_cons_self _ _
        · by_cases hxa : x = a
          · subst hxa; exact List.mem_cons_self _ _
          · apply List.mem_cons_of_mem
            rw [mem_setDedupAux rest (a :: seen) x]
            exact ⟨h1, fun hx => (List.mem_cons.1 hx).elim hxa h2⟩

lemma nodup_setDedupAux : ∀ (l seen : List String), (setDedupAux seen l).Nodup
  | [], _ => List.nodup_nil
  | a :: rest, seen => by
    simp only [setDedupAux]
    split_ifs with ha
    · exact nodup_setDedupAux rest seen
    · refine List.nodup_cons.2 ⟨?_, nodup_setDedupAux rest (a :: seen)⟩
      intro hmem
      rw [mem_setDedupAux] at hmem
      exact hmem.2 (List.mem_cons_self _ _)

lemma mem_setDedup (l : List String) (x : String) : x ∈ setDedup l ↔ x ∈ l := by
  simp [setDedup, mem_setDedupAux]

lemma nodup_setDedup (l : List String) : (setDedup l).Nodup :=
  nodup_setDedupAux l []

lemma mem_sortStrings (l : List String) (x : String) : x ∈ sortStrings l ↔ x ∈ l :=
  (List.perm_insertionSort _ l).mem_iff

lemma nodup_sortStrings (l : List String) (h : l.Nodup) : (sortStrings l).Nodup :=
  (List.perm_insertionSort _ l).nodup_iff.2 h

lemma pairwise_sortStrings (l : List String) :
    (sortStrings l).Pairwise (fun a b => strLe a b = true) :=
  List.sorted_insertionSort _ l

lemma mem_sortByDeadline (l : List Scholarship) (s : Scholarship) :
    s ∈ sortByDeadline l ↔ s ∈ l :=
  (List.perm_insertionSort _ l).mem_iff

lemma length_sortByDeadline (l : List Scholarship) :
    (sortByDeadline l).length = l.length :=
  (List.perm_insertionSort _ l).length_eq

lemma chain'_sortByDeadline (l : List Scholarship) :
    (sortByDeadline l).Chain' (fun a b => a.deadline ≤ b.deadline) :=
  List.Pairwise.chain' (List.sorted_insertionSort _ l)

lemma chain'_filteredScholarships (fuzzy : List Scholarship → String → List Scholarship)
    (rs : List Scholarship) (fl : SearchFilters) :
    (filteredScholarships fuzzy rs fl).Chain' (fun a b => a.deadline ≤ b.deadline) := by
  unfold filteredScholarships
  exact chain'_sortByDeadline _

lemma mem_filteredScholarships (fuzzy : List Scholarship → String → List Scholarship)
    (rs : List Scholarship) (fl : SearchFilters) (s : Scholarship) :
    s ∈ filteredScholarships fuzzy rs fl ↔
      s ∈ (if jsTrim fl.searchTerm ≠ "" then searchScholarships fuzzy rs fl.searchTerm else rs) ∧
        passesFilters fl s = true := by
  unfold filteredScholarships
  rw [mem_sortByDeadline, List.mem_filter]

lemma length_filteredScholarships (fuzzy : List Scholarship → String → List Scholarship)
    (rs : List Scholarship) (fl : SearchFilters) :
    (filteredScholarships fuzzy rs fl).length =
      List.countP (passesFilters fl)
        (if jsTrim fl.searchTerm ≠ "" then searchScholarships fuzzy rs fl.searchTerm else rs) := by
  unfold filteredScholarships
  rw [length_sortByDeadline, ← List.countP_eq_length_filter]

lemma isDateInRange_none_none (d : Int) : isDateInRange d none none = true := rfl

lemma isDateInRange_drop_from (d f : Int) (t : Option Int) :
    isDateInRange d (some f) t = true → isDateInRange d none t = true := by
  unfold isDateInRange
  simp only [Option.elim]
  split_ifs <;> simp_all

lemma isDateInRange_drop_to (d : Int) (f : Option Int) (t : Int) :
    isDateInRange d f (some t) = true → isDateInRange d f none = true := by
  unfold isDateInRange
  simp only [Option.elim]
  split_ifs <;> simp_all

lemma JSNum.ltInt_mono {a : JSNum} {m1 m2 : Int} (h : m1 ≤ m2) :
    a.ltInt m1 = true → a.ltInt m2 = true := by
  cases a <;> simp [JSNum.ltInt, Dec.ltInt]
  intro h1
  exact lt_of_lt_of_le h1 (mul_le_mul_of_nonneg_right h (Int.natCast_nonneg _))

lemma JSNum.gtInt_anti {a : JSNum} {m1 m2 : Int} (h : m1 ≤ m2) :
    a.gtInt m2 = true → a.gtInt m1 = true := by
  cases a <;> simp [JSNum.gtInt, Dec.gtInt]
  intro h1
  exact lt_of_le_of_lt (mul_le_mul_of_nonneg_right h (Int.natCast_nonneg _)) h1

lemma passesFilters_searchTerm (fl : SearchFilters) (t : String) (s : Scholarship) :
    passesFilters { fl with searchTerm := t } s = passesFilters fl s := rfl

lemma parseMantissa_num_nonneg (cs : List Char) :
    ∀ d r, parseMantissa cs = some (d, r) → 0 ≤ d.num := by
  intro d r h
  simp only [parseMantissa] at h
  split at h <;> split_ifs at h <;> simp_all <;>
    simp [← h.1, Int.natCast_nonneg]

lemma applyExp_num_nonneg {d : Dec} (e : Int) (h : 0 ≤ d.num) :
    0 ≤ (applyExp d e).num := by
  unfold applyExp
  split_ifs <;> simp only []
  · exact mul_nonneg h (Int.natCast_nonneg _)
  · exact h

lemma parseSigned_false_ltInt_zero (cs : List Char) :
    (parseSigned false cs).ltInt 0 = false := by
  unfold parseSigned
  by_cases hInf : hasPre "Infinity".data cs = true
  · rw [if_pos hInf]; rfl
  · rw [if_neg hInf]
    rcases hm : parseMantissa cs with - | ⟨d, rest⟩
    · rfl
    · have hd : 0 ≤ d.num := parseMantissa_num_nonneg cs d rest hm
      dsimp only
      rcases he : parseExp rest with - | ⟨e, r2⟩ <;>
        simp [JSNum.ltInt, Dec.ltInt, not_lt] <;>
        first
          | exact hd
          | exact applyExp_num_nonneg _ hd

lemma parseFloatJS_ltInt_zero (s : String) (h : '-' ∉ s.data) :
    (parseFloatJS s).ltInt 0 = false := by
  unfold parseFloatJS
  split
  · rename_i t heq
    exact absurd ((List.dropWhile_sublist _).subset (heq ▸ List.mem_cons_self _ _)) h
  · exact parseSigned_false_ltInt_zero _
  · exact parseSigned_false_ltInt_zero _

lemma parseAmount_ltInt_zero (s : String) (h : '-' ∉ s.data) :
    (parseAmount s).ltInt 0 = false := by
  have h2 : '-' ∉ (stripAmount s).data := fun hx => h (List.mem_of_mem_filter hx)
  have hz := parseFloatJS_ltInt_zero (stripAmount s) h2
  unfold parseAmount
  rcases hv : parseFloatJS (stripAmount s) with - | - | - | d <;> rw [hv] at hz <;>
    first
    | rfl
    | exact hz

lemma specFilterTablePassAmended_true_iff (fl : SearchFilters) (s : Scholarship) :
    specFilterTablePassAmended fl s = true ↔
      (fl.category = "" ∨ s.category = fl.category) ∧
      (fl.location = "" ∨ s.location = fl.location) ∧
      (parseAmount s.amount).ltInt fl.minAmount = false ∧
      (parseAmount s.amount).gtInt fl.maxAmount = false ∧
      isDateInRange s.deadline fl.deadlineFrom fl.deadlineTo = true ∧
      (fl.eligibility = [] ∨ eligibilityMatches fl s = true) := by
  unfold specFilterTablePassAmended
  split_ifs <;>
    simp_all [Option.not_isSome_iff_eq_none, isDateInRange_none_none,
      or_iff_not_imp_left] <;>
    tauto

/-- The source's filter predicate coincides with the amended §4.2 table. -/
lemma passesFilters_eq_amended (fl : SearchFilters) (s : Scholarship) :
    passesFilters fl s = specFilterTablePassAmended fl s := by
  have h := (passesFilters_true_iff fl s).trans
    (specFilterTablePassAmended_true_iff fl s).symm
  rcases hb : passesFilters fl s <;> rcases hb2 : specFilterTablePassAmended fl s <;>
    simp_all

lemma passes_le_of_category (fl : SearchFilters) (c : String) (h0 : fl.category = "")
    (s : Scholarship) :
    passesFilters { fl with category := c } s = true → passesFilters fl s = true := by
  intro h
  rw [passesFilters_true_iff] at h ⊢
  obtain ⟨-, h2, h3, h4, h5, h6⟩ := h
  exact ⟨Or.inl h0, h2, h3, h4, h5, h6⟩

lemma passes_le_of_location (fl : SearchFilters) (c : String) (h0 : fl.location = "")
    (s : Scholarship) :
    passesFilters { fl with location := c } s = true → passesFilters fl s = true := by
  intro h
  rw [passesFilters_true_iff] at h ⊢
  obtain ⟨h1, -, h3, h4, h5, h6⟩ := h
  exact ⟨h1, Or.inl h0, h3, h4, h5, h6⟩

lemma passes_le_of_min (fl : SearchFilters) (m : Int) (h0 : fl.minAmount = 0)
    (hm : 0 < m) (s : Scholarship) :
    passesFilters { fl with minAmount := m } s = true → passesFilters fl s = true := by
  intro h
  rw [passesFilters_true_iff] at h ⊢
  obtain ⟨h1, h2, h3, h4, h5, h6⟩ := h
  refine ⟨h1, h2, ?_, h4, h5, h6⟩
  rw [h0]
  by_cases hlt : (parseAmount s.amount).ltInt 0 = true
  · exact absurd (JSNum.ltInt_mono (le_of_lt hm) hlt) (by simp [h3])
  · exact Bool.not_eq_true _ ▸ (Bool.eq_false_iff.2 hlt)

lemma passes_le_of_max (fl : SearchFilters) (m : Int) (h0 : fl.maxAmount = 100000)
    (hm : m < 100000) (s : Scholarship) :
    passesFilters { fl with maxAmount := m } s = true → passesFilters fl s = true := by
  intro h
  rw [passesFilters_true_iff] at h ⊢
  obtain ⟨h1, h2, h3, h4, h5, h6⟩ := h
  refine ⟨h1, h2, h3, ?_, h5, h6⟩
  rw [h0]
  by_cases hgt : (parseAmount s.amount).gtInt 100000 = true
  · exact absurd (JSNum.gtInt_anti (le_of_lt hm) hgt) (by simp [h4])
  · exact Bool.eq_false_iff.2 hgt

lemma passes_le_of_from (fl : SearchFilters) (d : Int) (h0 : fl.deadlineFrom = none)
    (s : Scholarship) :
    passesFilters { fl with deadlineFrom := some d } s = true →
      passesFilters fl s = true := by
  intro h
  rw [passesFilters_true_iff] at h ⊢
  obtain ⟨h1, h2, h3, h4, h5, h6⟩ := h
  exact ⟨h1, h2, h3, h4, h0 ▸ isDateInRange_drop_from _ d _ h5, h6⟩

lemma passes_le_of_to (fl : SearchFilters) (d : Int) (h0 : fl.deadlineTo = none)
    (s : Scholarship) :
    passesFilters { fl with deadlineTo := some d } s = true →
      passesFilters fl s = true := by
  intro h
  rw [passesFilters_true_iff] at h ⊢
  obtain ⟨h1, h2, h3, h4, h5, h6⟩ := h
  exact ⟨h1, h2, h3, h4, h0 ▸ isDateInRange_drop_to _ _ d h5, h6⟩

lemma passes_le_of_elig (fl : SearchFilters) (es : List String) (h0 : fl.eligibility = [])
    (s : Scholarship) :
    passesFilters { fl with eligibility := es } s = true → passesFilters fl s = true := by
  intro h
  rw [passesFilters_true_iff] at h ⊢
  obtain ⟨h1, h2, h3, h4, h5, -⟩ := h
  exact ⟨h1, h2, h3, h4, h5, Or.inl h0⟩

/-- C3: for every fuzzy engine, record set and filters, every pair of adjacent
records (a, b) in the pipeline's output satisfies `a.deadline ≤ b.deadline`. -/
theorem c3_deadline_ordering (fuzzy : List Scholarship → String → List Scholarship)
    (records : List Scholarship) (fl : SearchFilters) :
    (filteredScholarships fuzzy records fl).Chain' (fun a b => a.deadline ≤ b.deadline) :=
  chain'_filteredScholarships fuzzy records fl

/-- C4: `searchScholarships` with an empty or whitespace-only search term
returns the input records unchanged (same list, hence same elements in the
same order), for every fuzzy engine. -/
theorem c4_empty_query_passthrough
    (fuzzy : List Scholarship → String → List Scholarship)
    (records : List Scholarship) (t : String) (h : jsTrim t = "") :
    searchScholarships fuzzy records t = records := by
  unfold searchScholarships
  rw [if_pos h]

/-- C4 witness: a whitespace-only term passes a concrete record list through
even when the fuzzy engine would discard everything. -/
theorem c4_empty_query_passthrough_witness :
    searchScholarships (fun _ _ => []) [demoScholarship] "   " = [demoScholarship] :=
  c4_empty_query_passthrough (fun _ _ => []) [demoScholarship] "   " (by decide)

/-- C5 counterexample: `parseAmount` does not strip a minus sign, and
`parseFloat` accepts it, so the amount string `"$-500"` parses to a negative
number — the claim's "returns a non-negative number" fails. -/
theorem c5_parse_amount_cex : (parseAmount "$-500").ltInt 0 = true := by decide

/-- C5 (amended): `parseAmount` strips `$`, commas and whitespace and never
throws (it is a total function); its result is non-negative for every amount
string that contains no minus sign, and any string whose stripped form does
not parse as a number yields exactly 0. -/
theorem c5_parse_amount_amended (s : String) :
    ('-' ∉ s.data → (parseAmount s).ltInt 0 = false) ∧
    (parseFloatJS (stripAmount s) = JSNum.nan → parseAmount s = JSNum.fin ⟨0, 0⟩) := by
  refine ⟨parseAmount_ltInt_zero s, fun h => ?_⟩
  unfold parseAmount
  rw [h]

/-- C5 witness: both amended conclusions at concrete amount strings. -/
theorem c5_parse_amount_amended_witness :
    (parseAmount "$5,000").ltInt 0 = false ∧ parseAmount "TBD" = JSNum.fin ⟨0, 0⟩ :=
  ⟨(c5_parse_amount_amended "$5,000").1 (by decide),
   (c5_parse_amount_amended "TBD").2 (by decide)⟩

/-- C2 counterexample: with all filters at their defaults no §4.2 constraint is
active, yet the record whose amount parses to 200000 is removed by the filter
stage — membership in the filtered result is not equivalent to satisfying the
active constraints of the table. -/
theorem c2_and_semantics_cex :
    ¬ (overCapScholarship2 ∈ List.filter (passesFilters initialFilters) [overCapScholarship2] ↔
        overCapScholarship2 ∈ [overCapScholarship2] ∧
          specFilterTablePass initialFilters overCapScholarship2 = true) := by
  decide

/-- C2 (amended): a record is kept by the filter stage iff it satisfies every
active constraint of the §4.2 table and, in addition, its parsed amount lies in
`[minAmount, maxAmount]` — the amount bound is enforced whether or not the
amount filter is active; the other four constraints bind only when active. -/
theorem c2_and_semantics_amended (records : List Scholarship) (fl : SearchFilters)
    (s : Scholarship) :
    s ∈ List.filter (passesFilters fl) records ↔
      s ∈ records ∧ specFilterTablePassAmended fl s = true := by
  rw [List.mem_filter, passesFilters_eq_amended]

/-- C9: the fuzzy matcher's per-field weights are strictly ordered — title
(0.4) above description (0.3) above provider (0.2) above category (0.1) — and
its minimum matched fragment length is 2. -/
theorem c9_fuse_config :
    fuseWeight "title" > fuseWeight "description" ∧
    fuseWeight "description" > fuseWeight "provider" ∧
    fuseWeight "provider" > fuseWeight "category" ∧
    fuseOptions.minMatchCharLength = 2 := by
  refine ⟨?_, ?_, ?_, rfl⟩ <;>
    · simp only [fuseWeight, fuseOptions, List.find?, decide_True, decide_False,
        String.reduceEq, Option.map_some, Option.getD_some]
      norm_num

/-- C1 counterexample: with the default filters the pipeline does not return
the full record set — a record whose amount parses to 150000 (above the
default `maxAmount` 100000) is dropped. -/
theorem c1_defaults_cex :
    overCapScholarship ∈ [overCapScholarship] ∧
    overCapScholarship ∉ filteredScholarships idFuzzy [overCapScholarship] initialFilters := by
  decide

/-- C1 (amended): with all filters at their defaults the pipeline returns
exactly the records whose parsed amount lies in the default range
[0, 100000] (all others are dropped by the always-on amount bound), sorted
ascending by deadline, and `hasActiveFilters` is `false`. -/
theorem c1_defaults_amended (fuzzy : List Scholarship → String → List Scholarship)
    (records : List Scholarship) :
    (∀ s, s ∈ filteredScholarships fuzzy records initialFilters ↔
        s ∈ records ∧ (parseAmount s.amount).ltInt 0 = false ∧
          (parseAmount s.amount).gtInt 100000 = false) ∧
    (filteredScholarships fuzzy records initialFilters).Chain'
      (fun a b => a.deadline ≤ b.deadline) ∧
    hasActiveFilters initialFilters = false := by
  refine ⟨fun s => ?_, chain'_filteredScholarships _ _ _, by decide⟩
  rw [mem_filteredScholarships,
    if_neg (by decide : ¬(jsTrim initialFilters.searchTerm ≠ "")),
    passesFilters_true_iff]
  constructor
  · rintro ⟨hmem, -, -, h3, h4, -, -⟩
    exact ⟨hmem, h3, h4⟩
  · rintro ⟨hmem, h3, h4⟩
    exact ⟨hmem, Or.inl rfl, Or.inl rfl, h3, h4, isDateInRange_none_none _, Or.inl rfl⟩

/-- C8: with a non-empty eligibility filter list, the eligibility test of the
filter stage holds iff some filter term is a case-insensitive substring of some
eligibility entry of the record; a record failing it is excluded; and in the
spec's concrete scenario (category STEM, eligibility ["GPA"]) the GPA record is
in the pipeline's output while the volunteer record is not. -/
theorem c8_eligibility_substring :
    (∀ (fl : SearchFilters) (s : Scholarship), fl.eligibility ≠ [] →
        (eligibilityMatches fl s = true ↔
          ∃ fe ∈ fl.eligibility, ∃ se ∈ s.eligibility,
            strIncludes (toLowerStr se) (toLowerStr fe) = true)) ∧
    (∀ (fl : SearchFilters) (s : Scholarship), fl.eligibility ≠ [] →
        eligibilityMatches fl s = false → passesFilters fl s = false) ∧
    gpaScholarship ∈
      filteredScholarships idFuzzy [gpaScholarship, volunteerScholarship] stemGpaFilters ∧
    volunteerScholarship ∉
      filteredScholarships idFuzzy [gpaScholarship, volunteerScholarship] stemGpaFilters := by
  refine ⟨fun fl s _ => ?_, fun fl s hne hm => ?_, by decide, by decide⟩
  · simp [eligibilityMatches, List.any_eq_true]
  · rcases hp : passesFilters fl s
    · rfl
    · exfalso
      obtain ⟨-, -, -, -, -, h6⟩ := (passesFilters_true_iff fl s).1 hp
      rcases h6 with h6 | h6
      · exact hne h6
      · rw [hm] at h6
        exact Bool.false_ne_true h6

/-- C8 witness: the eligibility equivalence instantiated at the scenario's
filters and GPA record. -/
theorem c8_eligibility_substring_witness :
    eligibilityMatches stemGpaFilters gpaScholarship = true ↔
      ∃ fe ∈ stemGpaFilters.eligibility, ∃ se ∈ gpaScholarship.eligibility,
        strIncludes (toLowerStr se) (toLowerStr fe) = true :=
  c8_eligibility_substring.1 stemGpaFilters gpaScholarship (by decide)

/-- C7: the facet lists depend only on the record set (they are identical for
any two filter values), and each is the distinct, sorted list of the values
found across the full working set. -/
theorem c7_facets_universe (fuzzy : List Scholarship → String → List Scholarship)
    (records : List Scholarship) (f1 f2 : SearchFilters) :
    (useSearchModel fuzzy records f1).filterOptions =
      (useSearchModel fuzzy records f2).filterOptions ∧
    (∀ c, c ∈ (filterOptions records).categories ↔ ∃ s ∈ records, s.category = c) ∧
    (filterOptions records).categories.Nodup ∧
    (filterOptions records).categories.Pairwise (fun a b => strLe a b = true) ∧
    (∀ c, c ∈ (filterOptions records).locations ↔ ∃ s ∈ records, s.location = c) ∧
    (filterOptions records).locations.Nodup ∧
    (filterOptions records).locations.Pairwise (fun a b => strLe a b = true) ∧
    (∀ e, e ∈ (filterOptions records).eligibilityOptions ↔
        ∃ s ∈ records, e ∈ s.eligibility) ∧
    (filterOptions records).eligibilityOptions.Nodup ∧
    (filterOptions records).eligibilityOptions.Pairwise (fun a b => strLe a b = true) := by
  refine ⟨rfl, fun c => ?_, nodup_sortStrings _ (nodup_setDedup _), pairwise_sortStrings _,
    fun c => ?_, nodup_sortStrings _ (nodup_setDedup _), pairwise_sortStrings _,
    fun e => ?_, nodup_sortStrings _ (nodup_setDedup _), pairwise_sortStrings _⟩
  · rw [show (filterOptions records).categories =
        sortStrings (setDedup (records.map (·.category))) from rfl,
      mem_sortStrings, mem_setDedup, List.mem_map]
  · rw [show (filterOptions records).locations =
        sortStrings (setDedup (records.map (·.location))) from rfl,
      mem_sortStrings, mem_setDedup, List.mem_map]
  · rw [show (filterOptions records).eligibilityOptions =
        sortStrings (setDedup ((records.map (·.eligibility)).flatten)) from rfl,
      mem_sortStrings, mem_setDedup, List.mem_flatten]
    constructor
    · rintro ⟨l, hl, he⟩
      obtain ⟨s, hs, rfl⟩ := List.mem_map.1 hl
      exact ⟨s, hs, he⟩
    · rintro ⟨s, hs, he⟩
      exact ⟨s.eligibility, List.mem_map.2 ⟨s, hs, rfl⟩, he⟩

/-- C6 counterexample: changing `maxAmount` from its default 100000 to the
non-default value 200000 (a single-field change away from the default) grows
the result count, because the amount bound is enforced even at the default. -/
theorem c6_monotone_narrowing_cex :
    (filteredScholarships idFuzzy [overCapScholarship] initialFilters).length <
      (filteredScholarships idFuzzy [overCapScholarship]
        { initialFilters with maxAmount := 200000 }).length := by
  decide

/-- C6 (amended): switching one filter dimension from its default to a value
that activates it in the §4.2 sense — `minAmount` to a positive value,
`maxAmount` to a value below 100000, category/location to a non-empty string,
a deadline bound to a non-null date, eligibility to a non-empty list, or the
search term to a non-empty string (with the fuzzy engine returning a
subpermutation of its input) — never increases the result count. -/
theorem c6_monotone_narrowing_amended
    (fuzzy : List Scholarship → String → List Scholarship)
    (hf : ∀ rs t, (fuzzy rs t).Subperm rs)
    (records : List Scholarship) (fl fl2 : SearchFilters)
    (h : activatesOne fl fl2) :
    (filteredScholarships fuzzy records fl2).length ≤
      (filteredScholarships fuzzy records fl).length := by
  rw [length_filteredScholarships, length_filteredScholarships]
  rcases h with ⟨h0, t, -, rfl⟩ | ⟨h0, c, -, rfl⟩ | ⟨h0, c, -, rfl⟩ | ⟨h0, m, hm, rfl⟩ |
    ⟨h0, m, hm, rfl⟩ | ⟨h0, d, rfl⟩ | ⟨h0, d, rfl⟩ | ⟨h0, es, -, rfl⟩
  · -- searchTerm activated
    have hpp : passesFilters { fl with searchTerm := t } = passesFilters fl :=
      funext fun s => passesFilters_searchTerm fl t s
    rw [hpp]
    dsimp only
    rw [h0, if_neg (by decide : ¬(jsTrim ("" : String) ≠ ""))]
    by_cases h2 : jsTrim t = ""
    · rw [if_neg (not_not_intro h2)]
    · rw [if_pos h2]
      unfold searchScholarships
      rw [if_neg h2]
      exact List.Subperm.countP_le _ (hf records t)
  · dsimp only
    exact List.countP_mono_left fun x _ => passes_le_of_category fl c h0 x
  · dsimp only
    exact List.countP_mono_left fun x _ => passes_le_of_location fl c h0 x
  · dsimp only
    exact List.countP_mono_left fun x _ => passes_le_of_min fl m h0 hm x
  · dsimp only
    exact List.countP_mono_left fun x _ => passes_le_of_max fl m h0 hm x
  · dsimp only
    exact List.countP_mono_left fun x _ => passes_le_of_from fl d h0 x
  · dsimp only
    exact List.countP_mono_left fun x _ => passes_le_of_to fl d h0 x
  · dsimp only
    exact List.countP_mono_left fun x _ => passes_le_of_elig fl es h0 x

/-- C6 witness: the amended monotonicity at a concrete activation (category
"STEM" switched on over a two-record set, with the identity fuzzy engine). -/
theorem c6_monotone_narrowing_amended_witness :
    (filteredScholarships idFuzzy [gpaScholarship, volunteerScholarship]
        { initialFilters with category := "STEM" }).length ≤
      (filteredScholarships idFuzzy [gpaScholarship, volunteerScholarship]
        initialFilters).length :=
  c6_monotone_narrowing_amended idFuzzy
    (fun rs _ => List.Subperm.refl rs)
    [gpaScholarship, volunteerScholarship] initialFilters
    { initialFilters with category := "STEM" }
    (Or.inr (Or.inl ⟨rfl, "STEM", by decide, rfl⟩))

lemma heapGet_concat_lt {hp : List (List Scholarship)} {l : List Scholarship} {r : Nat}
    (hr : r < hp.length) : heapGet (hp ++ [l]) r = heapGet hp r := by
  unfold heapGet
  rw [List.getElem?_append, if_pos hr]

lemma heapGet_concat_self (hp : List (List Scholarship)) (l : List Scholarship) :
    heapGet (hp ++ [l]) hp.length = l := by
  unfold heapGet
  rw [List.getElem?_concat_length]
  rfl

lemma heapGet_set_ne {hp : List (List Scholarship)} {i j : Nat} {l : List Scholarship}
    (hne : i ≠ j) : heapGet (hp.set i l) j = heapGet hp j := by
  unfold heapGet
  rw [List.getElem?_set_ne hne]

lemma heapGet_set_self {hp : List (List Scholarship)} {i : Nat} {l : List Scholarship}
    (hi : i < hp.length) : heapGet (hp.set i l) i = l := by
  unfold heapGet
  rw [List.getElem?_set_self hi]
  rfl

/-- C10: running the pipeline never mutates the caller's array — the array the
input reference denotes is unchanged afterwards — and the returned reference
denotes exactly the functional pipeline's result (the in-place sort hits only
the fresh array produced by `.filter`). -/
theorem c10_input_array_not_mutated
    (fuzzy : List Scholarship → String → List Scholarship) (fl : SearchFilters)
    (h : List (List Scholarship)) (r : Nat) (hr : r < h.length) :
    heapGet (pipelineOnHeap fuzzy fl h r).1 r = heapGet h r ∧
    heapGet (pipelineOnHeap fuzzy fl h r).1 (pipelineOnHeap fuzzy fl h r).2 =
      filteredScholarships fuzzy (heapGet h r) fl := by
  unfold pipelineOnHeap heapAlloc heapSet filteredScholarships
  by_cases ht : jsTrim fl.searchTerm = ""
  · rw [if_neg (not_not_intro ht), if_neg (not_not_intro ht)]
    dsimp only
    have hlen : h.length <
        (h ++ [(heapGet h r).filter (passesFilters fl)]).length := by
      simp only [List.length_append, List.length_cons, List.length_nil]
      omega
    refine ⟨?_, ?_⟩
    · rw [heapGet_set_ne (ne_of_gt hr), heapGet_concat_lt hr]
    · rw [heapGet_set_self hlen, heapGet_concat_self]
  · rw [if_pos ht, if_pos ht]
    dsimp only
    have hr1 : r < (h ++ [fuzzy (heapGet h r) fl.searchTerm]).length := by
      simp only [List.length_append, List.length_cons, List.length_nil]
      omega
    have hlen2 : (h ++ [fuzzy (heapGet h r) fl.searchTerm]).length <
        ((h ++ [fuzzy (heapGet h r) fl.searchTerm]) ++
          [(heapGet (h ++ [fuzzy (heapGet h r) fl.searchTerm]) h.length).filter
            (passesFilters fl)]).length := by
      simp only [List.length_append, List.length_cons, List.length_nil]
      omega
    refine ⟨?_, ?_⟩
    · rw [heapGet_set_ne (ne_of_gt hr1), heapGet_concat_lt hr1, heapGet_concat_lt hr]
    · rw [heapGet_set_self hlen2, heapGet_concat_self, heapGet_concat_self]
      unfold searchScholarships
      rw [if_neg ht]

/-- C10 witness: a one-array heap holding a concrete record is unchanged by
the pipeline, and the returned reference holds the functional result. -/
theorem c10_input_array_not_mutated_witness :
    heapGet (pipelineOnHeap idFuzzy initialFilters [[demoScholarship]] 0).1 0 =
      heapGet [[demoScholarship]] 0 ∧
    heapGet (pipelineOnHeap idFuzzy initialFilters [[demoScholarship]] 0).1
        (pipelineOnHeap idFuzzy initialFilters [[demoScholarship]] 0).2 =
      filteredScholarships idFuzzy (heapGet [[demoScholarship]] 0) initialFilters :=
  c10_input_array_not_mutated idFuzzy initialFilters [[demoScholarship]] 0 (by decide)
